import Mathlib

/-!
Verification of shmam/Regex-Parser (src/pattern.c, src/parse.c).

The embedding mirrors the C sources:
* a pattern tree (`Pat`) as built by `parse.c`;
* per-variant `locate` functions from `pattern.c`, each producing the
  boolean interval table the C code fills (`table b e` is `table[b][e]`,
  the `(len+1) x (len+1)` matrix; cells never written stay `false`, as
  `calloc` leaves them);
* the recursive-descent parser from `parse.c`, fuelled, with the two
  failure modes of the C code kept apart: `invalidPattern()` versus a
  scan that runs past the string terminator (an out-of-bounds read,
  undefined behavior in the C program).
-/

namespace RegexParser

/-- The pattern tree built by parse.c.  `symbol` covers the four
`makeSymbolPattern` dispatch targets (ordinary character, `'^'`, `'.'`
and `'$'`, selected by the stored character); the other constructors
are the concatenation, alteration, optional, asterisk, plus and
character-class patterns of pattern.c. -/
inductive Pat where
  | symbol (sym : Char)
  | cclass (cs : List Char)
  | concat (p1 p2 : Pat)
  | alter (p1 p2 : Pat)
  | opt (p : Pat)
  | asterisk (p : Pat)
  | plus (p : Pat)
deriving DecidableEq

/-- `matches(pat, begin, end)` of pattern.c: read the match table. -/
def matches' (table : Nat → Nat → Bool) (b e : Nat) : Bool := table b e

/-- The `(begin, end)` cells visited by the canonical double loop
`for begin = 0..len; for end = begin..len`, in visit order. -/
def intervalPairs (len : Nat) : List (Nat × Nat) :=
  (List.range (len + 1)).flatMap
    (fun b => (List.range (len + 1 - b)).map (fun i => (b, b + i)))

/-- `locateSymbolPattern`: for every `begin` with `str[begin]` non-null,
set `table[begin][begin+1]` when `str[begin] == sym`.  Out-of-range
reads yield the terminator, `Char.ofNat 0`. -/
def locateSymbolPattern (sym : Char) (str : List Char) : Nat → Nat → Bool :=
  fun b e =>
    decide (b < str.length) && (str.getD b (Char.ofNat 0) == sym) && (e == b + 1)

/-- `locateSymbolPatternPeriod`: set `table[begin][begin+1]` when
`' ' <= str[begin] <= 'z'` (character codes 32 and 122). -/
def locateSymbolPatternPeriod (str : List Char) : Nat → Nat → Bool :=
  fun b e =>
    decide (b < str.length) &&
      (decide (32 ≤ (str.getD b (Char.ofNat 0)).toNat) &&
        decide ((str.getD b (Char.ofNat 0)).toNat ≤ 122)) &&
      (e == b + 1)

/-- `locateSymbolPatternCarrot`: the loop runs over `begin` with
`str[begin]` non-null and sets `table[0][0]` at `begin == 0` when the
stored symbol is `'^'`; on the empty string the loop body never runs. -/
def locateSymbolPatternCarrot (sym : Char) (str : List Char) : Nat → Nat → Bool :=
  fun b e =>
    decide (0 < str.length) && (sym == '^') && (b == 0) && (e == 0)

/-- `locateSymbolPatternAnchor`: the loop runs over `begin` with
`str[begin]` non-null and sets `table[begin+1][begin+1]` at
`begin == strlen(str) - 1` when the stored symbol is `'$'`; on the
empty string the loop body never runs. -/
def locateSymbolPatternAnchor (sym : Char) (str : List Char) : Nat → Nat → Bool :=
  fun b e =>
    decide (0 < str.length) && (sym == '$') &&
      (b == str.length) && (e == str.length)

/-- `locateCharacterClassPattern`: set `table[begin][begin+1]` when
`str[begin]` equals some character of the class string. -/
def locateCharacterClassPattern (cs : List Char) (str : List Char) :
    Nat → Nat → Bool :=
  fun b e =>
    decide (b < str.length) &&
      cs.any (fun c => str.getD b (Char.ofNat 0) == c) && (e == b + 1)

/-- `locateConcatenationPattern`: cell `[begin][end]` (with
`begin ≤ end ≤ len`) is set when some split `k = begin..end` has
`matches(p1, begin, k) && matches(p2, k, end)`; `k = begin + j`. -/
def locateConcatenationPattern (t1 t2 : Nat → Nat → Bool) (len : Nat) :
    Nat → Nat → Bool :=
  fun b e =>
    decide (b ≤ e) && decide (e ≤ len) &&
      (List.range (e + 1 - b)).any
        (fun j => matches' t1 b (b + j) && matches' t2 (b + j) e)

/-- `locateAlterationPattern`: scan the interval pairs in loop order; at
the first pair where `p1` or `p2` matches, copy that child's whole
table (checking `p1` first) and break out of both loops.  If neither
child matches anywhere the table stays all false. -/
def locateAlterationPattern (t1 t2 : Nat → Nat → Bool) (len : Nat) :
    Nat → Nat → Bool :=
  match (intervalPairs len).find? (fun be => matches' t1 be.1 be.2 || matches' t2 be.1 be.2) with
  | none => fun _ _ => false
  | some be =>
    if matches' t1 be.1 be.2 then
      fun b e => decide (b ≤ e) && decide (e ≤ len) && matches' t1 b e
    else
      fun b e => decide (b ≤ e) && decide (e ≤ len) && matches' t2 b e

/-- The double loop of `locateOptionalPattern`: every visited cell is
set to true (both branches write `true`); at the first cell where the
child matches, the loop sets the cell and exits both loops
(`begin = end = len + 1; break`). -/
def locateOptionalPatternLoop (t : Nat → Nat → Bool) :
    List (Nat × Nat) → (Nat → Nat → Bool) → (Nat → Nat → Bool)
  | [], acc => acc
  | be :: rest, acc =>
    let acc' : Nat → Nat → Bool := fun b e => ((b == be.1) && (e == be.2)) || acc b e
    if matches' t be.1 be.2 then acc' else locateOptionalPatternLoop t rest acc'

/-- `locateOptionalPattern`: run the early-exit double loop over the
freshly zeroed table. -/
def locateOptionalPattern (t : Nat → Nat → Bool) (len : Nat) :
    Nat → Nat → Bool :=
  locateOptionalPatternLoop t (intervalPairs len) (fun _ _ => false)

/-- The inner `while` of `locatePlusPattern`: starting from
`steps = 0`, for `i = 0, 1, ...` while `begin + i <= len` and
`end + i <= len`, record `steps = i` whenever the child matches the
shifted interval `[begin+i, end+i]`.  Since the while-condition is
monotone, folding over `i = 0..len` with the same guard computes the
same final `steps`. -/
def locatePlusSteps (t : Nat → Nat → Bool) (len b e : Nat) : Nat :=
  (List.range (len + 1)).foldl
    (fun steps i =>
      if b + i ≤ len ∧ e + i ≤ len then
        (if matches' t (b + i) (e + i) then i else steps)
      else steps)
    0

/-- `locatePlusPattern`: for every cell `[begin][end]` where the child
matches, compute `steps` with the inner while loop and set the single
cell `table[begin][end + steps]`.  Each iteration writes only that one
cell, so a cell is true iff some iteration wrote it. -/
def locatePlusPattern (t : Nat → Nat → Bool) (len : Nat) :
    Nat → Nat → Bool :=
  fun b' e' =>
    (intervalPairs len).any
      (fun be => matches' t be.1 be.2 && (b' == be.1) &&
        (e' == be.2 + locatePlusSteps t len be.1 be.2))

/-- `locateAsteriskPattern`: `table[begin][begin]` is set for every
`begin ≤ len`; cell `[begin][end]` is additionally set when some
`k = begin..end` has `matches(sym, begin, k) || matches(sym, k, end)`. -/
def locateAsteriskPattern (t : Nat → Nat → Bool) (len : Nat) :
    Nat → Nat → Bool :=
  fun b e =>
    (decide (b ≤ len) && (e == b)) ||
      (decide (b ≤ e) && decide (e ≤ len) &&
        (List.range (e + 1 - b)).any
          (fun j => matches' t b (b + j) || matches' t (b + j) e))

/-- The `locate` method: a fresh table is computed for `str` (initTable
frees the old table and callocs a zeroed one of side `len + 1`), then
filled by the variant's locate function.  `makeSymbolPattern` dispatch:
`'^'` to Carrot, `'.'` to Period, `'$'` to Anchor, else the plain
symbol locate.  Composite patterns first locate their children and
then read the children's fresh tables. -/
def locate : Pat → List Char → (Nat → Nat → Bool)
  | .symbol c, str =>
    if c == '^' then locateSymbolPatternCarrot c str
    else if c == '.' then locateSymbolPatternPeriod str
    else if c == '$' then locateSymbolPatternAnchor c str
    else locateSymbolPattern c str
  | .cclass cs, str => locateCharacterClassPattern cs str
  | .concat p1 p2, str =>
    locateConcatenationPattern (locate p1 str) (locate p2 str) str.length
  | .alter p1 p2, str =>
    locateAlterationPattern (locate p1 str) (locate p2 str) str.length
  | .opt p, str => locateOptionalPattern (locate p str) str.length
  | .asterisk p, str => locateAsteriskPattern (locate p str) str.length
  | .plus p, str => locatePlusPattern (locate p str) str.length

/-- How a run of the C parser ends, besides returning a tree:
`invalid` is a call to `invalidPattern()` (print "Invalid pattern",
exit); `oob` is the group scan `while (str[*pos] != ')')` running past
the string terminator, an out-of-bounds read the C standard leaves
undefined; `fuelOut` only reports fuel exhaustion of the embedding and
never occurs on the inputs considered here. -/
inductive ParseErr where
  | invalid
  | oob
  | fuelOut
deriving DecidableEq

/-- `ordinary(c)` of parse.c: `c` is not one of the metacharacters
`. ^ $ * ? + | ( ) [` and the opening brace (code 123). -/
def ordinary (c : Char) : Bool :=
  !(['.', '^', '$', '*', '?', '+', '|', '(', ')', '[', Char.ofNat 123].contains c)

/-- A scan `while (str[*pos] != stop) { copy; advance; }` over the rest
of the string: the characters before the first `stop` plus the suffix
after it, or `none` when `stop` never occurs and the C loop would read
past the terminator. -/
def scanUntil (stop : Char) : List Char → Option (List Char × List Char)
  | [] => none
  | c :: rest =>
    if c == stop then some ([], rest)
    else
      match scanUntil stop rest with
      | none => none
      | some (pre, post) => some (c :: pre, post)

/-- The suffix loop of `parseRepetition`: wrap the pattern while the
next character is `'*'`, `'+'` or `'?'`. -/
def repSuffix : Pat → List Char → Pat × List Char
  | p, '*' :: rest => repSuffix (.asterisk p) rest
  | p, '+' :: rest => repSuffix (.plus p) rest
  | p, '?' :: rest => repSuffix (.opt p) rest
  | p, str => (p, str)

mutual

/-- `parseAtomicPattern` of parse.c.  An ordinary character becomes a
symbol pattern.  Otherwise: `'('` scans (flat, no depth counting, no
null check) to the first `')'` and recursively parses the collected
text with `parsePattern`; `'['` scans to `']'` with a null check that
calls `invalidPattern()`; `'.'`, `'^'`, `'$'` become symbol patterns;
anything else (including end of string) is `invalidPattern()`. -/
def parseAtomicPattern : Nat → List Char → Except ParseErr (Pat × List Char)
  | 0, _ => .error .fuelOut
  | fuel + 1, str =>
    match str with
    | [] => .error .invalid
    | c :: rest =>
      if ordinary c then .ok (.symbol c, rest)
      else if c == '(' then
        match scanUntil ')' rest with
        | none => .error .oob
        | some (inner, rest') =>
          match parsePattern fuel inner with
          | .error err => .error err
          | .ok p => .ok (p, rest')
      else if c == '[' then
        match scanUntil ']' rest with
        | none => .error .invalid
        | some (inner, rest') => .ok (.cclass inner, rest')
      else if c == '.' || c == '^' || c == '$' then .ok (.symbol c, rest)
      else .error .invalid

/-- `parseRepetition` of parse.c: an atomic pattern followed by any
number of `'*'` / `'+'` / `'?'` suffixes. -/
def parseRepetition : Nat → List Char → Except ParseErr (Pat × List Char)
  | 0, _ => .error .fuelOut
  | fuel + 1, str =>
    match parseAtomicPattern fuel str with
    | .error err => .error err
    | .ok (p, rest) => .ok (repSuffix p rest)

/-- The `while` loop of `parseConcatenation`: keep parsing repetitions
and folding them into concatenation patterns while the next character
exists and is neither `'|'` nor `')'`. -/
def parseConcatLoop : Nat → Pat → List Char → Except ParseErr (Pat × List Char)
  | 0, _, _ => .error .fuelOut
  | fuel + 1, p1, str =>
    match str with
    | [] => .ok (p1, [])
    | c :: _ =>
      if c == '|' || c == ')' then .ok (p1, str)
      else
        match parseRepetition fuel str with
        | .error err => .error err
        | .ok (p2, rest) => parseConcatLoop fuel (.concat p1 p2) rest

/-- `parseConcatenation` of parse.c. -/
def parseConcatenation : Nat → List Char → Except ParseErr (Pat × List Char)
  | 0, _ => .error .fuelOut
  | fuel + 1, str =>
    match parseRepetition fuel str with
    | .error err => .error err
    | .ok (p1, rest) => parseConcatLoop fuel p1 rest

/-- The `while` loop of `parseAlternation`: while the next character is
`'|'`, consume it, parse another concatenation and fold into an
alteration pattern. -/
def parseAlterLoop : Nat → Pat → List Char → Except ParseErr (Pat × List Char)
  | 0, _, _ => .error .fuelOut
  | fuel + 1, p1, str =>
    match str with
    | '|' :: rest =>
      match parseConcatenation fuel rest with
      | .error err => .error err
      | .ok (p2, rest') => parseAlterLoop fuel (.alter p1 p2) rest'
    | _ => .ok (p1, str)

/-- `parseAlternation` of parse.c. -/
def parseAlternation : Nat → List Char → Except ParseErr (Pat × List Char)
  | 0, _ => .error .fuelOut
  | fuel + 1, str =>
    match parseConcatenation fuel str with
    | .error err => .error err
    | .ok (p1, rest) => parseAlterLoop fuel p1 rest

/-- `parsePattern` of parse.c: parse a full alternation, then call
`invalidPattern()` if any characters remain unconsumed. -/
def parsePattern : Nat → List Char → Except ParseErr Pat
  | 0, _ => .error .fuelOut
  | fuel + 1, str =>
    match parseAlternation fuel str with
    | .error err => .error err
    | .ok (p, rest) => if rest.isEmpty then .ok p else .error .invalid

end

/-- The mutable state of a pattern object: the (immutable) tree
structure together with the `len` field and match table left by the
latest `locate` call. -/
structure PState where
  pat : Pat
  len : Nat
  tab : Nat → Nat → Bool

/-- A `locate` call on a pattern object: `initTable` unconditionally
frees the previous table and allocates a fresh zeroed one before any
cell is filled, so the new state depends only on the tree structure
and the input string, never on the previous table. -/
def locateSt (ps : PState) (str : List Char) : PState :=
  { pat := ps.pat, len := str.length, tab := locate ps.pat str }

/-- Claim C1: the claim says the alteration table is the plain union of
the children's tables.  The code instead copies one child's whole table
at the first matching interval and stops.  On input `"ab"` with
children `'a'` and `'b'`: the child `'b'` matches `[1,2)`, but the
alteration table has `table[1][2] = false` (only the `'a'` table was
copied), so the table is not the union. -/
theorem alteration_drops_second_child_match :
    locate (.alter (.symbol 'a') (.symbol 'b')) ['a', 'b'] 1 2 = false ∧
      matches' (locate (.symbol 'b') ['a', 'b']) 1 2 = true := by decide

/-- Claim C2: the claim says the asterisk table is the
reflexive-transitive closure of the child's match relation.  On input
`"ab"` with child `'a'`, the child matches only `[0,1)` (all other
intervals below are false), so position 2 is not reachable from 0 by
child-match hops; yet the code sets `table[0][2] = true` (its
single-split rule fires at `k = 1` via `matches(sym, 0, 1)`). -/
theorem asterisk_not_transitive_closure :
    locate (.asterisk (.symbol 'a')) ['a', 'b'] 0 2 = true ∧
      matches' (locate (.symbol 'a') ['a', 'b']) 0 1 = true ∧
      matches' (locate (.symbol 'a') ['a', 'b']) 0 0 = false ∧
      matches' (locate (.symbol 'a') ['a', 'b']) 0 2 = false ∧
      matches' (locate (.symbol 'a') ['a', 'b']) 1 1 = false ∧
      matches' (locate (.symbol 'a') ['a', 'b']) 1 2 = false ∧
      matches' (locate (.symbol 'a') ['a', 'b']) 2 2 = false := by decide

/-- Claim C3: the claim says every single child-match interval is
itself a plus match.  On input `"aa"` with child `'a'`, the child
matches `[0,1)`, but the code's plus table has `table[0][1] = false`:
the iteration for `(0,1)` computes `steps = 1` (the child also matches
the shifted interval `[1,2)`) and writes only `table[0][2]`. -/
theorem plus_drops_single_child_match :
    locate (.plus (.symbol 'a')) ['a', 'a'] 0 1 = false ∧
      matches' (locate (.symbol 'a') ['a', 'a']) 0 1 = true := by decide

/-- Claim C4: the claim says the optional table is exactly the child's
matches plus the empty match at every position.  On input `"b"` with
child `'a'`, the child matches nowhere, yet the code sets
`table[0][1] = true` (the loop's else-branch marks every visited cell);
and on input `"ba"` the loop exits at the child match `[1,2)` before
visiting `(2,2)`, leaving the empty match `table[2][2] = false`. -/
theorem optional_marks_wrong_cells :
    locate (.opt (.symbol 'a')) ['b'] 0 1 = true ∧
      matches' (locate (.symbol 'a') ['b']) 0 1 = false ∧
      locate (.opt (.symbol 'a')) ['b', 'a'] 2 2 = false := by decide

/-- Claim C5: the claim says the parser scans to the close parenthesis
matching under nesting-depth counting, so `((a)b)` parses into the
grammar's tree.  The code's flat scan stops at the first `')'`,
extracting `"(a"`; re-parsing that text scans for a `')'` that is not
there and runs past the string terminator (out-of-bounds read), so on
`((a)b)` the parser never returns a tree. -/
theorem nested_group_flat_scan_oob :
    parsePattern 50 ['(', '(', 'a', ')', 'b', ')'] = .error .oob := rfl

/-- Claim C6: the claim says an unmatched `'('` or `'['` raises
InvalidPattern.  The `'['` scan checks for the terminator and does
raise it (`"[ab"` below), but the `'('` scan has no such check: on
`"a("` the code reads past the end of the string (undefined behavior)
instead of calling `invalidPattern()`. -/
theorem unmatched_paren_oob_not_invalid :
    parsePattern 50 ['a', '('] = .error .oob ∧
      parsePattern 50 ['[', 'a', 'b'] = .error .invalid := ⟨rfl, rfl⟩

/-- Claim C7: the claim says `table[len][len]` is true for every input,
including the empty string.  The anchor's loop iterates over the
characters of the input, so on the empty string its body never runs and
`table[0][0]` stays false; on a nonempty input (here `"x"`) the cell
`table[len][len]` is set as claimed. -/
theorem end_anchor_false_on_empty_string :
    locate (.symbol '$') ([] : List Char) 0 0 = false ∧
      locate (.symbol '$') ['x'] 1 1 = true := by decide

/-- Claim C8: after locate on a concatenation node, for every interval
`b ≤ e ≤ len` the table cell is true iff some split `k ∈ [b, e]` has
the left child matching `[b, k)` and the right child matching
`[k, e)`. -/
theorem concat_table_iff_split (p1 p2 : Pat) (str : List Char) (b e : Nat)
    (hbe : b ≤ e) (hel : e ≤ str.length) :
    locate (.concat p1 p2) str b e = true ↔
      ∃ k, b ≤ k ∧ k ≤ e ∧ matches' (locate p1 str) b k = true ∧
        matches' (locate p2 str) k e = true := by
  show locateConcatenationPattern (locate p1 str) (locate p2 str) str.length b e = true ↔ _
  unfold locateConcatenationPattern
  simp only [Bool.and_eq_true, decide_eq_true_eq, List.any_eq_true, List.mem_range]
  constructor
  · rintro ⟨⟨-, -⟩, j, hj, h1, h2⟩
    exact ⟨b + j, Nat.le_add_right _ _, by omega, h1, h2⟩
  · rintro ⟨k, hbk, hke, h1, h2⟩
    refine ⟨⟨hbe, hel⟩, k - b, by omega, ?_⟩
    have hk : b + (k - b) = k := by omega
    rw [hk]
    exact ⟨h1, h2⟩

/-- Witness for claim C8: the hypotheses hold and the split equivalence
is realized at the concrete node `ab` on input `"ab"`, interval
`[0, 2)`. -/
theorem concat_table_iff_split_witness :
    (0 ≤ 2 ∧ 2 ≤ (['a', 'b'] : List Char).length) ∧
      (locate (.concat (.symbol 'a') (.symbol 'b')) ['a', 'b'] 0 2 = true ↔
        ∃ k, 0 ≤ k ∧ k ≤ 2 ∧
          matches' (locate (.symbol 'a') ['a', 'b']) 0 k = true ∧
          matches' (locate (.symbol 'b') ['a', 'b']) k 2 = true) :=
  ⟨⟨by decide, by decide⟩,
    concat_table_iff_split (.symbol 'a') (.symbol 'b') ['a', 'b'] 0 2
      (by decide) (by decide)⟩

/-- Claim C9: a second `locate` call with the same input leaves every
table entry (and the recorded length) exactly as the first call did:
`initTable` rebuilds the table from scratch, so the resulting state
depends only on the tree and the input, never on the prior table.
Quantifying over all patterns covers every node variant, and every
subtree of a located tree is itself a located pattern. -/
theorem locate_idempotent (ps : PState) (str : List Char) (b e : Nat) :
    (locateSt (locateSt ps str) str).tab b e = (locateSt ps str).tab b e ∧
      (locateSt (locateSt ps str) str).len = (locateSt ps str).len :=
  ⟨rfl, rfl⟩

/-- Claim C10: after locate on a wildcard (`'.'`) node, for every
in-range position `i` the cell `table[i][i+1]` is true iff the
character's code is between `' '` (32) and `'z'` (122); in particular
the printable characters `'\x7b'` (123), `'|'` (124), `'\x7d'` (125)
and `'~'` (126) are never matched. -/
theorem wildcard_table_iff_printable_range (str : List Char) (i : Nat)
    (h : i < str.length) :
    (locate (.symbol '.') str i (i + 1) = true ↔
      32 ≤ (str.get ⟨i, h⟩).toNat ∧ (str.get ⟨i, h⟩).toNat ≤ 122) ∧
    (str.get ⟨i, h⟩ = Char.ofNat 123 ∨ str.get ⟨i, h⟩ = '|' ∨
        str.get ⟨i, h⟩ = Char.ofNat 125 ∨ str.get ⟨i, h⟩ = '~' →
      locate (.symbol '.') str i (i + 1) = false) := by
  have hdis : locate (.symbol '.') str = locateSymbolPatternPeriod str := rfl
  have hget : str.getD i (Char.ofNat 0) = str.get ⟨i, h⟩ := by
    rw [List.getD_eq_getElem?_getD, List.getElem?_eq_getElem h]
    rfl
  have hiff : locate (.symbol '.') str i (i + 1) = true ↔
      32 ≤ (str.get ⟨i, h⟩).toNat ∧ (str.get ⟨i, h⟩).toNat ≤ 122 := by
    rw [hdis]
    unfold locateSymbolPatternPeriod
    simp [hget, h]
  refine ⟨hiff, ?_⟩
  intro hc
  have h123 : 122 < (str.get ⟨i, h⟩).toNat := by
    rcases hc with h1 | h1 | h1 | h1 <;> rw [h1] <;> decide
  cases hq : locate (.symbol '.') str i (i + 1)
  · rfl
  · exact absurd (hiff.mp hq).2 (by omega)

/-- Witness for claim C10: the hypothesis holds and both conjuncts are
realized at the concrete input `"a"`, position 0. -/
theorem wildcard_table_iff_printable_range_witness :
    (locate (.symbol '.') ['a'] 0 (0 + 1) = true ↔
      32 ≤ ((['a'] : List Char).get ⟨0, by decide⟩).toNat ∧
        ((['a'] : List Char).get ⟨0, by decide⟩).toNat ≤ 122) ∧
    ((['a'] : List Char).get ⟨0, by decide⟩ = Char.ofNat 123 ∨
        (['a'] : List Char).get ⟨0, by decide⟩ = '|' ∨
        (['a'] : List Char).get ⟨0, by decide⟩ = Char.ofNat 125 ∨
        (['a'] : List Char).get ⟨0, by decide⟩ = '~' →
      locate (.symbol '.') ['a'] 0 (0 + 1) = false) :=
  wildcard_table_iff_printable_range ['a'] 0 (by decide)

end RegexParser
